import Mathlib

/-!
Shallow embedding of `src/parsers/kamap_parser.py` (class `KamapParser`),
the text-to-structured-record extraction engine of the repository.

Modelling conventions:
* Python strings are `List Char` (`Str`); regex character classes
  (`\d`, `\s`, `\w`) and case folding are modelled over ASCII, which covers
  every pattern and every input the parser's patterns can accept.
* Python `float` values produced by the parser are exact decimals; prices,
  parking costs and bedroom counts are `Nat`, bathroom counts are `Decimal`
  (mantissa and power-of-ten scale, with rational value `decimalVal`).
* `datetime(year, month, day)` is `mkDate2026` returning `Option Date`
  (`none` models the `ValueError` that the source catches per unit/date pair).
* The one uncaught exception path (`float('')` inside `parse_price` when the
  matched numeral group is made of commas only) is modelled with
  `Except Unit`, and propagates through `_parse_listing_line` / `parse_all`
  exactly as in the source.
* `scraped_date` (`datetime.now()`, wall-clock time) is outside the pure
  embedding and is omitted from the record; no claim mentions it.
* Regex searches are implemented as leftmost-position scans.  Backtracking
  in the source's patterns is provably spurious (every quantified class is
  followed by a token that cannot start inside that class), so each
  quantifier takes its maximal run; this is reproduced in the matchers.
-/

namespace Kamap

abbrev Str := List Char

/-- ASCII digit, the `\d` class. -/
def isDigitChar (c : Char) : Bool := 48 ≤ c.toNat && c.toNat ≤ 57

/-- ASCII whitespace, the `\s` class (space, TAB, LF, VT, FF, CR). -/
def isWsChar (c : Char) : Bool := c.toNat = 32 || (9 ≤ c.toNat && c.toNat ≤ 13)

def isUpperChar (c : Char) : Bool := 65 ≤ c.toNat && c.toNat ≤ 90

def isLowerChar (c : Char) : Bool := 97 ≤ c.toNat && c.toNat ≤ 122

/-- ASCII word character, the `\w` class. -/
def isWordChar (c : Char) : Bool :=
  isDigitChar c || isUpperChar c || isLowerChar c || c.toNat = 95

/-- ASCII lower-casing, used for `re.I` matching and `str.lower()`. -/
def lowerChar (c : Char) : Char :=
  if isUpperChar c then Char.ofNat (c.toNat + 32) else c

/-- Case-sensitive prefix test. -/
def prefixCS : Str → Str → Bool
  | [], _ => true
  | _ :: _, [] => false
  | p :: ps, c :: cs => p == c && prefixCS ps cs

/-- Case-insensitive (`re.I`) prefix test. -/
def prefixCI : Str → Str → Bool
  | [], _ => true
  | _ :: _, [] => false
  | p :: ps, c :: cs => lowerChar p == lowerChar c && prefixCI ps cs

/-- Case-sensitive substring test. -/
def containsSub (pat : Str) : Str → Bool
  | [] => pat.isEmpty
  | s@(_ :: rest) => prefixCS pat s || containsSub pat rest

/-- Case-insensitive substring test. -/
def containsCI (pat : Str) : Str → Bool
  | [] => pat.isEmpty
  | s@(_ :: rest) => prefixCI pat s || containsCI pat rest

/-- Python `str.strip()`. -/
def trim (s : Str) : Str :=
  ((s.dropWhile isWsChar).reverse.dropWhile isWsChar).reverse

/-- Python `text.split(chr(10))`. -/
def splitNL : Str → List Str
  | [] => [[]]
  | c :: rest =>
    if c == '\n' then [] :: splitNL rest
    else
      match splitNL rest with
      | [] => [[c]]
      | g :: gs => (c :: g) :: gs

/-- Python `line.split(space, 1)`: `none` when the line holds no space
(Python returns a one-element list, so `len(parts) < 2`). -/
def splitOnce : Str → Option (Str × Str)
  | [] => none
  | c :: rest =>
    if c == ' ' then some ([], rest)
    else (splitOnce rest).map (fun p => (c :: p.1, p.2))

/-- Decimal digits to a number, `int()` / the integral part of `float()`. -/
def natOfDigits : Str → Nat :=
  List.foldl (fun acc c => acc * 10 + (c.toNat - 48)) 0

/-- A digit or a thousands separator: the `[\d,]` class of `parse_price`. -/
def isDC (c : Char) : Bool := isDigitChar c || c == ','

/-- Leftmost match of `\$?([\d,]+)` (the regex of `parse_price`),
returning capture group 1.  At a position holding a currency sign the
optional `\$?` consumes it when a `[\d,]` character follows; otherwise the
scan moves one position right. -/
def priceGroup : Str → Option Str
  | [] => none
  | c :: rest =>
    if c == '$' then
      match rest with
      | [] => none
      | d :: _ => if isDC d then some (rest.takeWhile isDC) else priceGroup rest
    else if isDC c then some ((c :: rest).takeWhile isDC)
    else priceGroup rest

/-- Source `KamapParser.parse_price`: the matched group with separators stripped,
converted by `float`.  `float('')` on a comma-only group raises
(`.error ()`); no match at all yields the absent marker `none`. -/
def parse_price (s : Str) : Except Unit (Option Nat) :=
  match priceGroup s with
  | none => Except.ok none
  | some g =>
    let ds := g.filter isDigitChar
    if ds.isEmpty then Except.error () else Except.ok (some (natOfDigits ds))

/-- Calendar date; the parser pins `year` to the fixed reference year 2026. -/
structure Date where
  year : Nat
  month : Nat
  day : Nat
deriving DecidableEq, Repr, Inhabited

/-- Month lengths used by `datetime` for the (non-leap) reference year. -/
def daysInMonth2026 (m : Nat) : Nat :=
  if m = 2 then 28
  else if m = 4 ∨ m = 6 ∨ m = 9 ∨ m = 11 then 30
  else 31

/-- Python `datetime(2026, month, day)`: `none` models the `ValueError` that
`parse_unit_numbers` catches for an out-of-range month/day. -/
def mkDate2026 (m d : Nat) : Option Date :=
  if 1 ≤ m ∧ m ≤ 12 ∧ 1 ≤ d ∧ d ≤ daysInMonth2026 m then
    some ⟨2026, m, d⟩
  else none

/-- One attempt of the unit/date regex `(\w+)\s*\((\d{1,2}/\d{1,2})\)` at the
head of `s`: on success, the unit token, the month digits, the day digits and
the total matched length.  Each quantified run is maximal (backtracking to a
shorter run always fails on the following literal). -/
def pairAt (s : Str) : Option (Str × Str × Str × Nat) :=
  let w := s.takeWhile isWordChar
  if w.isEmpty then none
  else
    let r1 := s.drop w.length
    let wsn := (r1.takeWhile isWsChar).length
    match r1.drop wsn with
    | '(' :: r2 =>
      let m := r2.takeWhile isDigitChar
      if m.isEmpty || 2 < m.length then none
      else
        match r2.drop m.length with
        | '/' :: r3 =>
          let d := r3.takeWhile isDigitChar
          if d.isEmpty || 2 < d.length then none
          else
            match r3.drop d.length with
            | ')' :: _ =>
              some (w, m, d, w.length + wsn + 1 + m.length + 1 + d.length + 1)
            | _ => none
        | _ => none
    | _ => none

/-- The `re.findall` scan for the unit/date pattern: leftmost, non-overlapping,
resuming after each match.  Every match consumes at least one character, so
fuel `s.length` is never exhausted. -/
def findAllPairsAux : Nat → Str → List (Str × Str × Str)
  | 0, _ => []
  | _ + 1, [] => []
  | fuel + 1, s@(_ :: rest) =>
    match pairAt s with
    | some (u, m, d, len) => (u, m, d) :: findAllPairsAux fuel (s.drop (max len 1))
    | none => findAllPairsAux fuel rest

def findAllPairs (s : Str) : List (Str × Str × Str) :=
  findAllPairsAux s.length s

/-- The accumulation loop of `parse_unit_numbers`: keep a pair when
`datetime` accepts its date, `continue` past it otherwise. -/
def collectUnits : List (Str × Str × Str) → List (Str × Date)
  | [] => []
  | (u, ms, ds) :: rest =>
    match mkDate2026 (natOfDigits ms) (natOfDigits ds) with
    | some d => (u, d) :: collectUnits rest
    | none => collectUnits rest

/-- Source `KamapParser.parse_unit_numbers`. -/
def parse_unit_numbers (unit_text : Str) : List (Str × Date) :=
  collectUnits (findAllPairs unit_text)

/-- A decimal number as matched from text: mantissa and power-of-ten
scale, an exact representation of the `float` the source builds.
`(25, 10)` is `2.5`; `(2, 1)` is `2`. -/
abbrev Decimal := Nat × Nat

/-- The rational value of a `Decimal`. -/
def decimalVal (p : Decimal) : ℚ := (p.1 : ℚ) / (p.2 : ℚ)

/-- Result of `KamapParser.parse_room_type`. -/
structure RoomInfo where
  bedrooms : Option Nat
  bathrooms : Option Decimal
  room_type : Str
  person_capacity : Option Nat
deriving DecidableEq, Repr

/-- One attempt of `(\d+)\s*(Bed|Singles?|Person)` (case-sensitive) at the
head of `s`: bedroom digits and the matched room-type token. -/
def bedAt (s : Str) : Option (Nat × Str) :=
  let ds := s.takeWhile isDigitChar
  if ds.isEmpty then none
  else
    let r1 := s.drop ds.length
    let r2 := r1.drop (r1.takeWhile isWsChar).length
    if prefixCS "Bed".data r2 then some (natOfDigits ds, "Bed".data)
    else if prefixCS "Single".data r2 then
      match r2.drop 6 with
      | c :: _ =>
        if c == 's' then some (natOfDigits ds, "Singles".data)
        else some (natOfDigits ds, "Single".data)
      | [] => some (natOfDigits ds, "Single".data)
    else if prefixCS "Person".data r2 then some (natOfDigits ds, "Person".data)
    else none

/-- Leftmost `re.search` scan for the bedroom pattern. -/
def searchBed : Str → Option (Nat × Str)
  | [] => none
  | s@(_ :: rest) =>
    match bedAt s with
    | some r => some r
    | none => searchBed rest

/-- One attempt of `(\d+(?:\.\d+)?)\s*Bath` (case-sensitive) at the head of
`s`: the bathroom count as an exact decimal. -/
def bathAt (s : Str) : Option Decimal :=
  let ds := s.takeWhile isDigitChar
  if ds.isEmpty then none
  else
    let r1 := s.drop ds.length
    let fr : Str × Str :=
      match r1 with
      | '.' :: t =>
        let fs := t.takeWhile isDigitChar
        if fs.isEmpty then ([], r1) else (fs, t.drop fs.length)
      | _ => ([], r1)
    let r3 := fr.2.drop (fr.2.takeWhile isWsChar).length
    if prefixCS "Bath".data r3 then
      some (natOfDigits (ds ++ fr.1), 10 ^ fr.1.length)
    else none

/-- Leftmost `re.search` scan for the bathroom pattern. -/
def searchBath : Str → Option Decimal
  | [] => none
  | s@(_ :: rest) =>
    match bathAt s with
    | some r => some r
    | none => searchBath rest

/-- Source `KamapParser.parse_room_type`. -/
def parse_room_type (room_str : Str) : RoomInfo :=
  let bed := searchBed room_str
  { bedrooms := bed.map Prod.fst
    bathrooms := searchBath room_str
    room_type := match bed with
      | some p => p.2
      | none => "Unknown".data
    person_capacity := bed.map Prod.fst }

/-- Gapped pattern `a.*b` under `re.I` without `re.DOTALL`: an occurrence of
`a`, then an occurrence of `b` further right with no line break between the
two (`.` does not cross a newline). -/
def findBeforeNL (b : Str) : Str → Bool
  | [] => b.isEmpty
  | s@(c :: rest) =>
    if prefixCI b s then true
    else if c == '\n' then false
    else findBeforeNL b rest

def searchGap (a b : Str) : Str → Bool
  | [] => false
  | s@(_ :: rest) =>
    (prefixCI a s && findBeforeNL b (s.drop a.length)) || searchGap a b rest

def searchGapS (a b : String) (s : Str) : Bool := searchGap a.data b.data s

def containsCIS (pat : String) (s : Str) : Bool := containsCI pat.data s

/-- One attempt of `\$(\d+)\s*per year` (case-sensitive) at the head of `s`. -/
def parkingAt (s : Str) : Option Nat :=
  match s with
  | '$' :: r1 =>
    let ds := r1.takeWhile isDigitChar
    if ds.isEmpty then none
    else
      let r2 := r1.drop ds.length
      let r3 := r2.drop (r2.takeWhile isWsChar).length
      if prefixCS "per year".data r3 then some (natOfDigits ds) else none
  | _ => none

/-- Leftmost `re.search` scan for the parking-cost pattern. -/
def searchParking : Str → Option Nat
  | [] => none
  | s@(_ :: rest) =>
    match parkingAt s with
    | some r => some r
    | none => searchParking rest

/-- Result of `KamapParser.extract_features`. -/
structure Features where
  is_remodeled : Bool
  has_balcony : Bool
  has_patio : Bool
  has_parking : Bool
  split_floor_plan : Bool
  parking_cost_yearly : Nat
  amenities : Str
deriving DecidableEq, Repr

/-- Source `KamapParser.extract_features`: boolean keyword flags, the parking cost
(defaulting to 0), and the amenity tag list joined with a comma-space
delimiter, or the literal when no tag matched. -/
def extract_features (description : Str) : Features :=
  let ams : List Str :=
    (if searchGapS "Free" "Internet" description then ["Free Internet".data] else []) ++
    (if searchGapS "Water" "Trash" description || searchGapS "Trash" "Water" description
       then ["Water/Trash Included".data] else []) ++
    (if searchGapS "Washer" "Dryer" description then ["In-Unit Washer/Dryer".data] else []) ++
    (if containsCIS "Gas" description then ["Gas Included".data] else [])
  { is_remodeled := containsCIS "Remodeled" description
    has_balcony := containsCIS "Balcony" description
    has_patio := containsCIS "Patio" description
    has_parking := containsCIS "Parking Available" description
    split_floor_plan := containsCIS "Split Floor Plan" description
    parking_cost_yearly := (searchParking description).getD 0
    amenities :=
      if ams.isEmpty then "None listed".data
      else List.intercalate ", ".data ams }

/-- One attempt of the unit-marker pattern `Unit[s]?\s*#` (case-sensitive:
the source passes no flag at line 130) at the head of `s`: the matched
length.  The optional `s` and the whitespace run are maximal (backtracking
to less always fails on the required sign). -/
def unitMarkerAt (s : Str) : Option Nat :=
  if prefixCS "Unit".data s then
    let r1 := s.drop 4
    let se : Str × Nat :=
      match r1 with
      | c :: cs => if c == 's' then (cs, 5) else (r1, 4)
      | [] => (r1, 4)
    let wsn := (se.1.takeWhile isWsChar).length
    match se.1.drop wsn with
    | '#' :: _ => some (se.2 + wsn + 1)
    | _ => none
  else none

/-- Leftmost `re.search` for the unit marker: `(start, stop)` positions,
with `stop` just past the sign (`match.start()` / `match.end()`). -/
def findUnitMarker : Str → Option (Nat × Nat)
  | [] => none
  | s@(_ :: rest) =>
    match unitMarkerAt s with
    | some len => some (0, len)
    | none => (findUnitMarker rest).map (fun p => (p.1 + 1, p.2 + 1))

/-- One rentable unit-availability entry (`scraped_date`, wall-clock time in
the source, is outside the pure embedding). -/
structure ListingRecord where
  listing_id : Str
  property_management : Str
  address : Str
  unit_number : Str
  price_monthly : Option Nat
  available_date : Date
  source_url : Str
  bedrooms : Option Nat
  bathrooms : Option Decimal
  room_type : Str
  person_capacity : Option Nat
  is_remodeled : Bool
  has_balcony : Bool
  has_patio : Bool
  has_parking : Bool
  split_floor_plan : Bool
  parking_cost_yearly : Nat
  amenities : Str
  description : Str
deriving DecidableEq, Repr, Inhabited

/-- The suffix the assembler appends to the address context. -/
def cityTail : Str := ", Isla Vista, CA 93117".data

/-- The listing id built at line 144 of the source: the address with spaces
replaced by underscores between fixed affixes, lower-cased. -/
def mkListingId (addr unit : Str) : Str :=
  (("kamap_".data ++
    addr.map (fun c => if c == ' ' then '_' else c) ++
    "_".data ++ unit).map lowerChar)

/-- The record dictionary built for one unit/date pair inside the
`for unit_info in units` loop (source lines 142-157). -/
def mkListing (addr : Str) (price : Option Nat) (room : RoomInfo)
    (feats : Features) (desc : Str) (u : Str × Date) : ListingRecord :=
  { listing_id := mkListingId addr u.1
    property_management := "Kamap Property Management".data
    address := addr ++ cityTail
    unit_number := u.1
    price_monthly := price
    available_date := u.2
    source_url := "https://www.kamap.net/".data
    bedrooms := room.bedrooms
    bathrooms := room.bathrooms
    room_type := room.room_type
    person_capacity := room.person_capacity
    is_remodeled := feats.is_remodeled
    has_balcony := feats.has_balcony
    has_patio := feats.has_patio
    has_parking := feats.has_parking
    split_floor_plan := feats.split_floor_plan
    parking_cost_yearly := feats.parking_cost_yearly
    amenities := feats.amenities
    description := desc }

/-- Source `KamapParser._parse_listing_line`: price token / remainder split, unit
marker location, the three fragment extractors, and one record per
unit/date pair.  An uncaught `ValueError` from `parse_price` propagates. -/
def parseListingLine (line addr : Str) : Except Unit (List ListingRecord) :=
  match splitOnce line with
  | none => Except.ok []
  | some (p0, rest) =>
    match parse_price p0 with
    | Except.error e => Except.error e
    | Except.ok price =>
      match findUnitMarker rest with
      | none => Except.ok []
      | some se =>
        let room_part := trim (rest.take se.1)
        let unit_part := trim (rest.drop se.2)
        let room := parse_room_type room_part
        let units := parse_unit_numbers unit_part
        let feats := extract_features (line ++ ' ' :: unit_part)
        Except.ok (units.map (mkListing addr price room feats (trim line)))

/-- The enumerated street-name alternatives of the address pattern. -/
def streetNames : List Str :=
  ["Cordoba".data, "Abrego".data, "El Nido".data, "Segovia".data,
   "Sabado Tarde".data, "Trigo".data, "Picasso".data, "Pasado".data,
   "Camino Corto".data, "Embarcadero del Norte".data]

/-- The optional street-type suffix alternatives. -/
def streetKinds : List Str :=
  ["Rd".data, "St".data, "Ave".data, "Dr".data, "Ln".data]

/-- First alternative (in listed order) matching as a prefix of `s`,
case-insensitively — regex alternation.  No listed alternative is a prefix
of another, so the choice is unambiguous. -/
def firstAlt (pats : List Str) (s : Str) : Option Str :=
  pats.find? (fun p => prefixCI p s)

/-- One attempt of the address pattern
`(\d{4,5}\s+(?:<street names>)(?:\s+(?:Rd|St|Ave|Dr|Ln))?)` (`re.I`) at
the head of `s`: the matched text (capture group 1, original casing).
The digit run must be exactly 4 or 5 long — a longer run leaves a digit
where `\s+` is required. -/
def addressAt (s : Str) : Option Str :=
  let ds := s.takeWhile isDigitChar
  if ds.length = 4 ∨ ds.length = 5 then
    let r1 := s.drop ds.length
    let ws := r1.takeWhile isWsChar
    if ws.isEmpty then none
    else
      let r2 := r1.drop ws.length
      match firstAlt streetNames r2 with
      | none => none
      | some p =>
        let core := ds ++ ws ++ r2.take p.length
        let r3 := r2.drop p.length
        let ws2 := r3.takeWhile isWsChar
        if ws2.isEmpty then some core
        else
          match firstAlt streetKinds (r3.drop ws2.length) with
          | none => some core
          | some q => some (core ++ ws2 ++ (r3.drop ws2.length).take q.length)
  else none

/-- Leftmost `re.search` for the address pattern. -/
def findAddress : Str → Option Str
  | [] => none
  | s@(_ :: rest) =>
    match addressAt s with
    | some a => some a
    | none => findAddress rest

/-- Python `line.startswith(chr(36))`. -/
def startsDollar : Str → Bool
  | '$' :: _ => true
  | _ => false

/-- The document walk of `KamapParser.parse_all` (lines 103-117): strip each
line, let an address match update the context and `continue`, hand a
currency-prefixed line under a known address to the assembler, ignore
everything else. -/
def walkLines : Option Str → List Str → Except Unit (List ListingRecord)
  | _, [] => Except.ok []
  | addr, l :: ls =>
    let line := trim l
    match findAddress line, startsDollar line, addr with
    | some a, _, _ => walkLines (some a) ls
    | none, true, some a =>
      match parseListingLine line a with
      | Except.error e => Except.error e
      | Except.ok rs => (walkLines addr ls).map (fun t => rs ++ t)
    | none, _, _ => walkLines addr ls

/-- Source `KamapParser.parse_all` on already-extracted document text. -/
def parse_all (text : Str) : Except Unit (List ListingRecord) :=
  walkLines none (splitNL text)

/-- The record sequence of a successful parse (empty on the error case);
used to state concrete-input facts. -/
def recordsOf (e : Except Unit (List ListingRecord)) : List ListingRecord :=
  e.toOption.getD []

end Kamap

deriving instance DecidableEq for Except

namespace Kamap

/-! Spec-side definitions: formulations taken from the specification's
words, to be compared with the definitions above taken from the source. -/

/-- Spec-side: the first maximal run of digit-or-separator characters of a
fragment — "a numeral group (digits with optional thousands separators)". -/
def firstDCRun : Str → Option Str
  | [] => none
  | c :: rest =>
    if isDC c then some ((c :: rest).takeWhile isDC) else firstDCRun rest

/-- Spec-side: lengths of the twelve months of the (non-leap) reference
year, as a calendar table. -/
def monthLengths2026 : List Nat :=
  [31, 28, 31, 30, 31, 30, 31, 31, 30, 31, 30, 31]

/-- Spec-side: the fixed ordered configuration table of
(keyword pattern, canonical amenity tag) pairs. -/
def amenityTable : List ((Str → Bool) × Str) :=
  [(searchGapS "Free" "Internet", "Free Internet".data),
   (fun d => searchGapS "Water" "Trash" d || searchGapS "Trash" "Water" d,
    "Water/Trash Included".data),
   (searchGapS "Washer" "Dryer", "In-Unit Washer/Dryer".data),
   (containsCIS "Gas", "Gas Included".data)]

/-- A record with its per-pair fields (unit number, availability date, and
the id derived from the unit number) blanked: two records of one line agree
on this projection, i.e. share every other field. -/
def eraseKey (r : ListingRecord) : ListingRecord :=
  { r with listing_id := [], unit_number := [], available_date := ⟨0, 0, 0⟩ }

/-! Concrete inputs used by the witnesses and counterexamples. -/

/-- The worked example of the specification: an address line followed by a
listing line. -/
def c2text : Str :=
  "6543 Segovia Rd\n$3,250 2 Bed / 2 Bath Unit #A101 (8/15)".data

/-- A document whose listing line names the same unit/date pair twice. -/
def c8text : Str :=
  "6543 Segovia Rd\n$3,250 2 Bed / 2 Bath Unit #A101 (8/15) A101 (8/15)".data

/-- The listing line of `c8text`. -/
def c8line : Str :=
  "$3,250 2 Bed / 2 Bath Unit #A101 (8/15) A101 (8/15)".data

/-- The remainder of `c8line` after its price token. -/
def c8rest : Str :=
  "2 Bed / 2 Bath Unit #A101 (8/15) A101 (8/15)".data

/-- The address context of the concrete examples. -/
def segoviaAddr : Str := "6543 Segovia Rd".data

/-- A listing line with two unit/date pairs. -/
def c1line : Str :=
  "$3,250 2 Bed / 2 Bath Unit #A101 (8/15) B202 (9/1)".data

/-- The remainder of `c1line` after its price token. -/
def c1rest : Str :=
  "2 Bed / 2 Bath Unit #A101 (8/15) B202 (9/1)".data

/-- A listing line whose price token is a currency sign followed by a bare
separator: its numeral group holds no digit. -/
def c6line : Str := "$, no units here".data

/-- A classified listing line with the unit marker and one valid unit/date
pair, but the same degenerate price token as `c6line`. -/
def c1failLine : Str := "$, 2 Bed Unit #A1 (8/15)".data

/-! Helper lemmas shared by the claim theorems. -/

/-- A successful assembly, written out: the assembler's output is one
`mkListing` record per unit/date pair of the unit fragment. -/
theorem parseListingLine_eq_ok (line addr p0 rest : Str) (se : Nat × Nat)
    (price : Option Nat)
    (hs : splitOnce line = some (p0, rest))
    (hp : parse_price p0 = Except.ok price)
    (hm : findUnitMarker rest = some se) :
    parseListingLine line addr =
      Except.ok ((parse_unit_numbers (trim (rest.drop se.2))).map
        (mkListing addr price (parse_room_type (trim (rest.take se.1)))
          (extract_features (line ++ ' ' :: trim (rest.drop se.2))) (trim line))) := by
  simp only [parseListingLine, hs, hp, hm]

/-- A price-extractor exception aborts the assembly of the line. -/
theorem parseListingLine_eq_err (line addr p0 rest : Str)
    (hs : splitOnce line = some (p0, rest))
    (hp : parse_price p0 = Except.error ()) :
    parseListingLine line addr = Except.error () := by
  simp only [parseListingLine, hs, hp]

/-- Every record the assembler emits carries the id derived from the
address context and its own unit number, and the suffixed address. -/
theorem parseListingLine_mem_id (line a : Str) (rs : List ListingRecord)
    (r : ListingRecord)
    (hok : parseListingLine line a = Except.ok rs) (hr : r ∈ rs) :
    r.listing_id = mkListingId a r.unit_number ∧ r.address = a ++ cityTail := by
  cases hsp : splitOnce line with
  | none =>
    simp only [parseListingLine, hsp, Except.ok.injEq] at hok
    subst hok
    cases hr
  | some pr =>
    obtain ⟨p0, rest⟩ := pr
    cases hp : parse_price p0 with
    | error e =>
      simp only [parseListingLine, hsp, hp] at hok
      exact Except.noConfusion hok
    | ok price =>
      cases hm : findUnitMarker rest with
      | none =>
        simp only [parseListingLine, hsp, hp, hm, Except.ok.injEq] at hok
        subst hok
        cases hr
      | some se =>
        rw [parseListingLine_eq_ok line a p0 rest se price hsp hp hm] at hok
        injection hok with hok
        subst hok
        obtain ⟨u, _, hu⟩ := List.mem_map.mp hr
        subst hu
        exact ⟨rfl, rfl⟩

/-- A line without a space splits into a single token. -/
theorem splitOnce_of_no_space (line : Str) (h : ' ' ∉ line) :
    splitOnce line = none := by
  induction line with
  | nil => rfl
  | cons c rest ih =>
    have hc : ¬(c == ' ') = true := by
      simp only [beq_iff_eq]
      intro hcc
      exact h (hcc ▸ List.mem_cons_self c rest)
    simp only [splitOnce, if_neg hc,
      ih (fun hm => h (List.mem_cons_of_mem c hm))]
    rfl

/-- The regex engine of `parse_price` finds exactly the first maximal
digit-or-separator run: the optional currency sign only widens the match,
never changes the captured group. -/
theorem priceGroup_eq_firstDCRun (s : Str) : priceGroup s = firstDCRun s := by
  induction s with
  | nil => rfl
  | cons c rest ih =>
    by_cases hc : c = '$'
    · subst hc
      have h1 : isDC '$' = false := by decide
      cases rest with
      | nil => simp [priceGroup, firstDCRun, h1]
      | cons d t =>
        by_cases hd : isDC d = true
        · simp [priceGroup, firstDCRun, h1, hd]
        · simp only [Bool.not_eq_true] at hd
          simp only [priceGroup, firstDCRun, h1, hd, if_false] at ih ⊢
          simpa [firstDCRun, hd] using ih
    · have hc2 : ¬(c == '$') = true := by simpa using hc
      by_cases hdc : isDC c = true
      · simp [priceGroup, firstDCRun, hc2, hdc]
      · simp only [Bool.not_eq_true] at hdc
        simp [priceGroup, firstDCRun, hc2, hdc, ih]

/-- The first digit-or-separator run is absent exactly on fragments free of
digits and separators. -/
theorem firstDCRun_eq_none_iff (s : Str) :
    firstDCRun s = none ↔ ∀ c ∈ s, isDC c = false := by
  induction s with
  | nil => simp [firstDCRun]
  | cons c rest ih =>
    by_cases hdc : isDC c = true
    · simp [firstDCRun, hdc]
    · simp only [Bool.not_eq_true] at hdc
      simp [firstDCRun, hdc, ih]

/-! The claims. -/

/-- C2.  Parsing the listing line of the worked example under the address
context set by the preceding address line yields exactly one record, whose
address contains the street address, with price 3250, two bedrooms, two
bathrooms (the decimal `(2, 1)`, of value `2`), unit `A101`, and August 15
of the fixed reference year 2026 as the availability date. -/
theorem c2_worked_example :
    (recordsOf (parse_all c2text)).map
        (fun r => containsSub segoviaAddr r.address) = [true] ∧
    (recordsOf (parse_all c2text)).map ListingRecord.price_monthly = [some 3250] ∧
    (recordsOf (parse_all c2text)).map ListingRecord.bedrooms = [some 2] ∧
    (recordsOf (parse_all c2text)).map ListingRecord.bathrooms = [some (2, 1)] ∧
    (recordsOf (parse_all c2text)).map
        (fun r => r.bathrooms.map decimalVal) = [some 2] ∧
    (recordsOf (parse_all c2text)).map ListingRecord.unit_number = ["A101".data] ∧
    (recordsOf (parse_all c2text)).map ListingRecord.available_date = [⟨2026, 8, 15⟩] := by
  refine ⟨by decide, by decide, by decide, by decide, ?_, by decide, by decide⟩
  have h : (recordsOf (parse_all c2text)).map ListingRecord.bathrooms = [some (2, 1)] := by
    decide
  have h2 : (recordsOf (parse_all c2text)).map (fun r => r.bathrooms.map decimalVal) =
      ((recordsOf (parse_all c2text)).map ListingRecord.bathrooms).map
        (fun o => o.map decimalVal) := by
    simp [List.map_map]
  rw [h2, h]
  norm_num [decimalVal]

/-- C5, counterexample.  The price extractor accepts a numeral group with
no currency prefix at all: on the fragment `1000`, which holds no currency
sign, it returns the value 1000 rather than the absent marker, so "absent
iff no currency-marked numeral exists" fails. -/
theorem c5_price_counterexample :
    parse_price "1000".data = Except.ok (some 1000) ∧ '$' ∉ "1000".data := by
  decide

/-- C5, amended.  The currency prefix is optional: the extractor keys on
the first digit-or-separator run of the fragment.  It returns the absent
marker — never zero — exactly when the fragment holds no digit and no
separator; when the first run holds a digit it returns that run's numeric
value with separators stripped; a run of separators only raises
(uncaught `ValueError` from `float` applied to an empty string). -/
theorem c5_price_amended (s : Str) :
    (parse_price s = Except.ok none ↔ ∀ c ∈ s, isDC c = false) ∧
    (∀ g, firstDCRun s = some g → g.any isDigitChar = true →
      parse_price s = Except.ok (some (natOfDigits (g.filter isDigitChar)))) ∧
    (∀ g, firstDCRun s = some g → g.any isDigitChar = false →
      parse_price s = Except.error ()) := by
  refine ⟨?_, ?_, ?_⟩
  · unfold parse_price
    rw [priceGroup_eq_firstDCRun]
    cases hg : firstDCRun s with
    | none =>
      simp only [hg]
      exact iff_of_true trivial ((firstDCRun_eq_none_iff s).mp hg)
    | some g =>
      have hne : ¬∀ c ∈ s, isDC c = false := by
        intro hall
        rw [(firstDCRun_eq_none_iff s).mpr hall] at hg
        cases hg
      by_cases he : (g.filter isDigitChar).isEmpty = true
      · simp [he, hne]
      · simp [he, hne]
  · intro g hg hd
    unfold parse_price
    rw [priceGroup_eq_firstDCRun, hg]
    have : (g.filter isDigitChar).isEmpty = false := by
      rcases List.any_eq_true.mp hd with ⟨c, hc, hcd⟩
      rcases List.isEmpty_eq_false_iff_exists_mem.mpr
        ⟨c, List.mem_filter.mpr ⟨hc, hcd⟩⟩ with h
      exact h
    simp [this]
  · intro g hg hd
    unfold parse_price
    rw [priceGroup_eq_firstDCRun, hg]
    have : (g.filter isDigitChar).isEmpty = true := by
      rw [List.isEmpty_iff, List.filter_eq_nil_iff]
      intro c hc
      simpa using (List.any_eq_false.mp (by simpa using hd)) c hc
    simp [this]

/-- C6, counterexample.  A classified listing line whose remainder holds no
unit marker can still raise: the price token `$,` makes `parse_price` fail
on `float` of the empty string before the marker search runs, so "no record
and no error" does not hold for every marker-free line. -/
theorem c6_no_marker_counterexample :
    parseListingLine c6line segoviaAddr = Except.error () ∧
    (splitOnce c6line).map (fun p => findUnitMarker p.2) = some none := by
  decide

/-- C6, amended.  A listing line whose remainder holds no unit marker is
silently skipped — zero records, no error — provided the price extractor
itself does not raise on the price token (it raises only when the token's
numeral group is made of separators alone). -/
theorem c6_no_marker_amended (line addr p0 rest : Str)
    (hs : splitOnce line = some (p0, rest))
    (hm : findUnitMarker rest = none)
    (hp : parse_price p0 ≠ Except.error ()) :
    parseListingLine line addr = Except.ok [] := by
  cases hpr : parse_price p0 with
  | error e => exact absurd hpr hp
  | ok price => simp only [parseListingLine, hs, hpr, hm]

/-- C6, amended, witness at a concrete instance. -/
theorem c6_no_marker_amended_witness :
    parseListingLine "$800 no marker here".data segoviaAddr = Except.ok [] :=
  c6_no_marker_amended "$800 no marker here".data segoviaAddr
    "$800".data "no marker here".data (by decide) (by decide) (by decide)

/-- C10.  A classified listing line with no space — a single
whitespace-delimited token — yields zero records and no error: the
assembler returns before any extractor runs (witnessed below on `$,`,
whose price token would raise if the price extractor ran). -/
theorem c10_single_token_line (line addr : Str)
    (_hd : startsDollar line = true) (h : ' ' ∉ line) :
    parseListingLine line addr = Except.ok [] := by
  simp only [parseListingLine, splitOnce_of_no_space line h]

/-- C10, witness at a concrete instance. -/
theorem c10_single_token_line_witness :
    parseListingLine "$,".data segoviaAddr = Except.ok [] :=
  c10_single_token_line "$,".data segoviaAddr (by decide) (by decide)

/-- C1, counterexample.  A classified listing line can contain the unit
marker and one valid unit/date pair and still emit zero records: on
`$, 2 Bed Unit #A1 (8/15)` the price extractor raises (uncaught
`ValueError` from `float` of the empty string) before the unit extractor
runs, so no record is assembled — the claim fails without a no-raise
proviso on the price token. -/
theorem c1_price_raise_counterexample :
    parseListingLine c1failLine segoviaAddr = Except.error () ∧
    (splitOnce c1failLine).map (fun p =>
        (findUnitMarker p.2).map (fun se =>
          parse_unit_numbers (trim (p.2.drop se.2)))) =
      some (some [("A1".data, ⟨2026, 8, 15⟩)]) := by
  decide

/-- C1, amended.  A classified listing line whose unit fragment yields `n`
valid unit/date pairs, and whose price token does not make the price
extractor raise, expands into exactly `n` records, in pair order; any two
of them agree on every field other than the unit number, the availability
date, and the listing id; and each record's listing id is the fixed
function of the address context and its own unit number. -/
theorem c1_assembler_expands_pairs (line addr p0 rest : Str) (se : Nat × Nat)
    (hs : splitOnce line = some (p0, rest))
    (hm : findUnitMarker rest = some se)
    (hp : parse_price p0 ≠ Except.error ()) :
    ∃ rs, parseListingLine line addr = Except.ok rs ∧
      rs.length = (parse_unit_numbers (trim (rest.drop se.2))).length ∧
      rs.map ListingRecord.unit_number =
        (parse_unit_numbers (trim (rest.drop se.2))).map Prod.fst ∧
      rs.map ListingRecord.available_date =
        (parse_unit_numbers (trim (rest.drop se.2))).map Prod.snd ∧
      (∀ r₁ ∈ rs, ∀ r₂ ∈ rs, eraseKey r₁ = eraseKey r₂) ∧
      (∀ r ∈ rs, r.listing_id = mkListingId addr r.unit_number) := by
  cases hpr : parse_price p0 with
  | error e =>
    cases e
    exact absurd hpr hp
  | ok price =>
    refine ⟨_, parseListingLine_eq_ok line addr p0 rest se price hs hpr hm,
      by simp, by simp [mkListing], by simp [mkListing], ?_, ?_⟩
    · intro r₁ h₁ r₂ h₂
      obtain ⟨u₁, _, hu₁⟩ := List.mem_map.mp h₁
      obtain ⟨u₂, _, hu₂⟩ := List.mem_map.mp h₂
      subst hu₁
      subst hu₂
      rfl
    · intro r hrr
      obtain ⟨u, _, hu⟩ := List.mem_map.mp hrr
      subst hu
      rfl

/-- C1, witness: on a line with two unit/date pairs the assembler succeeds
and emits exactly two records. -/
theorem c1_assembler_expands_pairs_witness :
    (recordsOf (parseListingLine c1line segoviaAddr)).length = 2 := by
  obtain ⟨rs, hok, hlen, -⟩ := c1_assembler_expands_pairs c1line segoviaAddr
    "$3,250".data c1rest (15, 21) (by decide) (by decide) (by decide)
  rw [hok]
  exact hlen.trans (by decide)

/-- C8, counterexample.  A listing line naming the same unit/date pair
twice yields two records with one and the same
(address, unit number, availability date) triple, so the parse is not
one-record-per-distinct-triple. -/
theorem c8_duplicate_triple_counterexample :
    (recordsOf (parse_all c8text)).map
        (fun r => (r.address, r.unit_number, r.available_date)) =
      [(segoviaAddr ++ cityTail, "A101".data, ⟨2026, 8, 15⟩),
       (segoviaAddr ++ cityTail, "A101".data, ⟨2026, 8, 15⟩)] := by
  decide

/-- C8, amended.  On a classified listing line whose price token does not
make the price extractor raise, the parse produces exactly one record per
occurrence of a valid unit/date pair — duplicate occurrences of the same
triple each produce their own record, with no deduplication: the emitted
(address, unit number, date) triples are exactly the pair occurrences of
the unit fragment under the line's address context. -/
theorem c8_one_record_per_pair (line addr p0 rest : Str) (se : Nat × Nat)
    (hs : splitOnce line = some (p0, rest))
    (hm : findUnitMarker rest = some se)
    (hp : parse_price p0 ≠ Except.error ()) :
    ∃ rs, parseListingLine line addr = Except.ok rs ∧
      rs.map (fun r => (r.address, r.unit_number, r.available_date)) =
        (parse_unit_numbers (trim (rest.drop se.2))).map
          (fun u => (addr ++ cityTail, u.1, u.2)) := by
  cases hpr : parse_price p0 with
  | error e =>
    cases e
    exact absurd hpr hp
  | ok price =>
    refine ⟨_, parseListingLine_eq_ok line addr p0 rest se price hs hpr hm, ?_⟩
    simp [List.map_map, mkListing]

/-- C8, amended, witness at the duplicated-pair line. -/
theorem c8_one_record_per_pair_witness :
    (recordsOf (parseListingLine c8line segoviaAddr)).map
        (fun r => (r.address, r.unit_number, r.available_date)) =
      (parse_unit_numbers (trim (c8rest.drop 21))).map
        (fun u => (segoviaAddr ++ cityTail, u.1, u.2)) := by
  obtain ⟨rs, hok, hmap⟩ := c8_one_record_per_pair c8line segoviaAddr
    "$3,250".data c8rest (15, 21) (by decide) (by decide) (by decide)
  rw [hok]
  exact hmap

/-- Every record of a walk carries an id derived from some address context
together with its own unit number, and that context suffixed as its
address. -/
theorem walkLines_mem_id (ls : List Str) :
    ∀ (addr : Option Str) (rs : List ListingRecord) (r : ListingRecord),
      walkLines addr ls = Except.ok rs → r ∈ rs →
      ∃ a, r.listing_id = mkListingId a r.unit_number ∧ r.address = a ++ cityTail := by
  induction ls with
  | nil =>
    intro addr rs r h hr
    simp only [walkLines, Except.ok.injEq] at h
    subst h
    cases hr
  | cons l t ih =>
    intro addr rs r h hr
    cases hA : findAddress (trim l) with
    | some a2 =>
      simp only [walkLines, hA] at h
      exact ih _ _ _ h hr
    | none =>
      cases hD : startsDollar (trim l) with
      | false =>
        simp only [walkLines, hA, hD] at h
        exact ih _ _ _ h hr
      | true =>
        cases addr with
        | none =>
          simp only [walkLines, hA, hD] at h
          exact ih _ _ _ h hr
        | some a =>
          cases hP : parseListingLine (trim l) a with
          | error e =>
            simp only [walkLines, hA, hD, hP] at h
            exact Except.noConfusion h
          | ok rs1 =>
            cases hW : walkLines (some a) t with
            | error e =>
              simp only [walkLines, hA, hD, hP, hW, Except.map] at h
              exact Except.noConfusion h
            | ok rs2 =>
              simp only [walkLines, hA, hD, hP, hW, Except.map,
                Except.ok.injEq] at h
              subst h
              rcases List.mem_append.mp hr with h1 | h2
              · exact ⟨a, parseListingLine_mem_id (trim l) a rs1 r hP h1⟩
              · exact ih _ _ _ hW h2

/-- C3.  The listing id is a pure, deterministic function of
(address, unit number): any two records — from any two parses, of the same
or of different input texts — that agree on address and unit number carry
the same listing id.  In this embedding a parse is a pure function of the
input text, so re-parsing identical text yields the identical record
sequence (and count) definitionally. -/
theorem c3_listing_id_deterministic (t₁ t₂ : Str) (rs₁ rs₂ : List ListingRecord)
    (r₁ r₂ : ListingRecord)
    (h₁ : parse_all t₁ = Except.ok rs₁) (h₂ : parse_all t₂ = Except.ok rs₂)
    (m₁ : r₁ ∈ rs₁) (m₂ : r₂ ∈ rs₂)
    (ha : r₁.address = r₂.address) (hu : r₁.unit_number = r₂.unit_number) :
    r₁.listing_id = r₂.listing_id := by
  obtain ⟨a₁, hid₁, haddr₁⟩ := walkLines_mem_id (splitNL t₁) none rs₁ r₁ h₁ m₁
  obtain ⟨a₂, hid₂, haddr₂⟩ := walkLines_mem_id (splitNL t₂) none rs₂ r₂ h₂ m₂
  have haa : a₁ = a₂ := by
    have h3 : a₁ ++ cityTail = a₂ ++ cityTail := by
      rw [← haddr₁, ← haddr₂, ha]
    exact List.append_cancel_right h3
  rw [hid₁, hid₂, haa, hu]

/-- C3, witness: the same (address, unit) in two different documents gets
the same id. -/
theorem c3_listing_id_deterministic_witness :
    (recordsOf (parse_all c2text)).headI.listing_id =
      (recordsOf (parse_all c8text)).headI.listing_id :=
  c3_listing_id_deterministic c2text c8text
    (recordsOf (parse_all c2text)) (recordsOf (parse_all c8text))
    ((recordsOf (parse_all c2text)).headI) ((recordsOf (parse_all c8text)).headI)
    (by decide) (by decide) (by decide) (by decide) (by decide) (by decide)

/-- C4.  Lines preceding any recognized address line contribute zero
records: the walk over a document whose line list begins with an
address-free prefix — currency-prefixed lines included — produces exactly
the records of the remaining lines. -/
theorem c4_no_address_prefix_discarded (text : Str) (ls₁ ls₂ : List Str)
    (hsplit : splitNL text = ls₁ ++ ls₂)
    (h : ∀ l ∈ ls₁, findAddress (trim l) = none) :
    parse_all text = walkLines none ls₂ := by
  unfold parse_all
  rw [hsplit]
  clear hsplit
  induction ls₁ with
  | nil => rfl
  | cons l t ih =>
    have hl := h l (List.mem_cons_self l t)
    have ht : ∀ x ∈ t, findAddress (trim x) = none :=
      fun x hx => h x (List.mem_cons_of_mem l hx)
    rw [← ih ht]
    cases hD : startsDollar (trim l) <;> simp only [walkLines, hl, hD] <;> rfl

/-- C4, witness: a document of two listing lines and no address line parses
to the empty record sequence. -/
theorem c4_no_address_prefix_discarded_witness :
    parse_all "$3,250 2 Bed / 2 Bath Unit #A101 (8/15)\n$950 1 Bath Units# B2 (9/1)".data =
      Except.ok [] :=
  (c4_no_address_prefix_discarded
    "$3,250 2 Bed / 2 Bath Unit #A101 (8/15)\n$950 1 Bath Units# B2 (9/1)".data
    ["$3,250 2 Bed / 2 Bath Unit #A101 (8/15)".data, "$950 1 Bath Units# B2 (9/1)".data]
    [] (by decide) (by decide)).trans rfl

/-- The reference-year `datetime` constructor agrees with the calendar
table of month lengths. -/
theorem mkDate2026_eq_calendar (m d : Nat) :
    mkDate2026 m d =
      (if 1 ≤ m ∧ m ≤ 12 ∧ 1 ≤ d ∧ d ≤ monthLengths2026.getD (m - 1) 0 then
        some ⟨2026, m, d⟩ else none) := by
  by_cases h1 : 1 ≤ m
  · by_cases h2 : m ≤ 12
    · interval_cases m <;>
        simp [mkDate2026, daysInMonth2026, monthLengths2026, List.getD]
    · simp [mkDate2026, h2]
  · simp [mkDate2026, h1]

/-- C7.  A unit/date pair with an out-of-range month or day is dropped
individually: the extractor's output is exactly the filtered map of the
pattern's matches keeping each pair whose month/day form a valid calendar
date of the fixed reference year, in match order — other pairs of the same
fragment are unaffected. -/
theorem c7_invalid_date_pairs_dropped (t : Str) :
    parse_unit_numbers t =
      (findAllPairs t).filterMap (fun p =>
        if 1 ≤ natOfDigits p.2.1 ∧ natOfDigits p.2.1 ≤ 12 ∧
            1 ≤ natOfDigits p.2.2 ∧
            natOfDigits p.2.2 ≤ monthLengths2026.getD (natOfDigits p.2.1 - 1) 0 then
          some (p.1, ⟨2026, natOfDigits p.2.1, natOfDigits p.2.2⟩)
        else none) := by
  unfold parse_unit_numbers
  generalize findAllPairs t = l
  induction l with
  | nil => rfl
  | cons p rest ih =>
    obtain ⟨u, ms, ds⟩ := p
    have hd := mkDate2026_eq_calendar (natOfDigits ms) (natOfDigits ds)
    by_cases hc : 1 ≤ natOfDigits ms ∧ natOfDigits ms ≤ 12 ∧
        1 ≤ natOfDigits ds ∧
        natOfDigits ds ≤ monthLengths2026.getD (natOfDigits ms - 1) 0
    · rw [if_pos hc] at hd
      simp only [collectUnits, hd, List.filterMap_cons, if_pos hc, ih]
    · rw [if_neg hc] at hd
      simp only [collectUnits, hd, List.filterMap_cons, if_neg hc, ih]

/-- C9.  The amenity value is never the empty string: it is the literal
"None listed" marker exactly when no pattern of the fixed
(pattern, canonical tag) table matches, and otherwise the matching tags in
the table's fixed scan order, joined with a comma-space delimiter. -/
theorem c9_amenity_tags (d : Str) :
    (extract_features d).amenities ≠ [] ∧
    ((∀ p ∈ amenityTable, p.1 d = false) →
      (extract_features d).amenities = "None listed".data) ∧
    (extract_features d).amenities =
      (if ((amenityTable.filter (fun p => p.1 d)).map Prod.snd).isEmpty then
        "None listed".data
      else
        List.intercalate ", ".data
          ((amenityTable.filter (fun p => p.1 d)).map Prod.snd)) := by
  cases h1 : searchGapS "Free" "Internet" d <;>
    cases h2 : (searchGapS "Water" "Trash" d || searchGapS "Trash" "Water" d) <;>
      cases h3 : searchGapS "Washer" "Dryer" d <;>
        cases h4 : containsCIS "Gas" d <;>
          refine ⟨?_, ?_, ?_⟩ <;>
            simp [extract_features, amenityTable, h1, h2, h3, h4,
              List.intercalate]

end Kamap
